import Mathlib

/-!
# Verification of the diy-docker-go image pipeline

A shallow embedding of the repository's three source files:

* `src/app/image.go` — registry client: image-reference parsing,
  authorization, manifest resolution, layer download and extraction;
* `src/unnamed/part_000` — `main`: staging-directory creation, pull,
  chroot, child launch and exit-code propagation;
* `src/unnamed/part_001` — `chroot` and `copyFile`.

Side effects (HTTP, filesystem, subprocesses) are modelled by oracle
parameters describing each external outcome, explicit state for the
staging directory, and event traces recording the order of observable
actions.
-/

namespace DiyDocker

/-! ## Data model (`src/app/image.go`) -/

/-- `Platform` (image.go:59-62): `architecture` and `os` of a manifest entry. -/
structure Platform where
  arch : String
  os : String
deriving DecidableEq, Repr

/-- `Manifest` (image.go:53-57): one entry of a manifest list. -/
structure Manifest where
  platform : Platform
  digest : String
  mediaType : String
deriving DecidableEq, Repr

/-- `Layer` (image.go:64-68): one layer descriptor. -/
structure Layer where
  mediaType : String
  size : Int
  digest : String
deriving DecidableEq, Repr

/-- `ManifestListResponse` (image.go:70-73): the shared decode shape with
optional `manifests` and `layers` (absent JSON fields decode to `[]`). -/
structure ManifestListResponse where
  manifests : List Manifest
  layers : List Layer
deriving DecidableEq, Repr

/-- `TokenResponse` (image.go:49-51). -/
structure TokenResponse where
  token : String
deriving DecidableEq, Repr

/-- `DockerImageClient` (image.go:26-32), minus the `http.Client` handle,
which carries no data relevant to behaviour. -/
structure DockerImageClient where
  name : String
  tag : String
  token : String
  dir : String
deriving DecidableEq, Repr

/-- The manifest `Accept` header constant `HEADER_ACCEPT_API` (image.go:23);
the same literal is also written inline at image.go:114. -/
def HEADER_ACCEPT_API : String := "application/vnd.docker.distribution.manifest.v2+json"

/-! ## Image-reference parsing (`newDockerImageClient`, image.go:34-47) -/

/-- Split a character list at every occurrence of `c`. Models Go's
`strings.Split(s, ":")` for the single-character separator used by the
source; like `strings.Split`, the result is never empty. -/
def splitOnChar (c : Char) : List Char → List (List Char)
  | [] => [[]]
  | x :: xs =>
    if x = c then [] :: splitOnChar c xs
    else
      match splitOnChar c xs with
      | [] => [[x]]
      | h :: t => (x :: h) :: t

/-- `strings.Split(name, ":")` as used at image.go:35. -/
def stringsSplitColon (s : String) : List String :=
  (splitOnChar ':' s.toList).map String.mk

/-- Embeds `newDockerImageClient` (image.go:34-47). The source declares
`var nam, tag string` (zero value `""`) and assigns them only when
`len(parts) == 1`; there is no branch for a `name:tag` reference, so both
fields remain `""` in that case. The `token` field starts at its zero
value and `http` is omitted. -/
def newDockerImageClient (name dir : String) : DockerImageClient :=
  let parts := stringsSplitColon name
  let nam : String := if parts.length = 1 then parts.headD "" else ""
  let tag : String := if parts.length = 1 then "latest" else ""
  { name := nam, tag := tag, token := "", dir := dir }

/-! ## HTTP model

A registry call's observable input is the HTTP response it gets back.
`HttpResponse` pairs the status code with the JSON-decode outcome of the
body (`none` models a decode failure). A whole-response `Option` at the
call site models `http.NewRequest` / `client.Do` failure. -/

structure HttpResponse (α : Type) where
  statusCode : Nat
  body : Option α
deriving DecidableEq, Repr

/-- The requests a pull can issue, with the data the source puts in them:
manifest GETs carry the repository name, the tag-or-digest reference and
the `Accept` header; blob GETs carry the repository name and digest. -/
inductive RegistryRequest where
  | manifests (name ref accept : String)
  | blobs (name digest : String)
deriving DecidableEq, Repr

/-! ## Authorization (`authorize`, image.go:86-105) -/

/-- Embeds `authorize` (image.go:86-105). `resp = none` models a request
construction or transport failure. The source never inspects
`resp.StatusCode`: it decodes the body unconditionally and stores the
resulting token (the zero value `""` when the JSON has no `token` field). -/
def authorize (d : DockerImageClient) (resp : Option (HttpResponse TokenResponse)) :
    Except String DockerImageClient :=
  match resp with
  | none => .error "authorize: do request"
  | some r =>
    match r.body with
    | none => .error "authorize: decode"
    | some tRes => .ok { d with token := tRes.token }

/-! ## Manifest resolution (`getLayers` / `getLayersFromManifests`,
image.go:107-175) -/

/-- The loop condition at image.go:144:
`m.Platform.Os == runtime.GOOS && m.Platform.Arch == runtime.GOARCH`,
with the runtime values passed in as `goos` / `goarch`. -/
def platformMatches (goos goarch : String) (m : Manifest) : Bool :=
  m.platform.os == goos && m.platform.arch == goarch

/-- Embeds the selection loop of `getLayersFromManifests` (image.go:142-147):
`for _, m := range manifests { if <match> { manifest = &m } }`. The
assignment runs on every match, so the last matching entry survives. -/
def selectManifest (goos goarch : String) (manifests : List Manifest) :
    Option Manifest :=
  manifests.foldl (fun acc m => if platformMatches goos goarch m then some m else acc)
    none

/-- Embeds `getLayersFromManifests` (image.go:141-175). `fetch` is the
network oracle (`none` models request construction or transport failure).
Returns the result together with the list of registry requests issued by
this function, in order. -/
def getLayersFromManifests (goos goarch : String) (d : DockerImageClient)
    (fetch : RegistryRequest → Option (HttpResponse ManifestListResponse))
    (manifests : List Manifest) :
    Except String (List Layer) × List RegistryRequest :=
  match selectManifest goos goarch manifests with
  | none => (.error ("no manifest found for " ++ goos ++ "/" ++ goarch), [])
  | some manifest =>
    let req := RegistryRequest.manifests d.name manifest.digest manifest.mediaType
    match fetch req with
    | none => (.error "fetch layers from manifests: do request", [req])
    | some resp =>
      if resp.statusCode ≠ 200 then
        (.error ("fetch layers from manifests: " ++ toString resp.statusCode), [req])
      else
        match resp.body with
        | none => (.error "fetch layers from manifests decode", [req])
        | some mRes =>
          if mRes.layers.isEmpty then
            (.error "no layers found in image manifest", [req])
          else
            (.ok mRes.layers, [req])

/-- Embeds `getLayers` (image.go:107-139): fetch the manifest for
`(name, tag)` with the v2 `Accept` header; on a manifest list delegate to
`getLayersFromManifests`, otherwise use the top-level `layers`, rejecting
an empty list. Returns the result with the requests issued, in order. -/
def getLayers (goos goarch : String) (d : DockerImageClient)
    (fetch : RegistryRequest → Option (HttpResponse ManifestListResponse)) :
    Except String (List Layer) × List RegistryRequest :=
  let req := RegistryRequest.manifests d.name d.tag HEADER_ACCEPT_API
  match fetch req with
  | none => (.error "getLayers: do request", [req])
  | some resp =>
    if resp.statusCode ≠ 200 then
      (.error ("fetch layers: " ++ toString resp.statusCode), [req])
    else
      match resp.body with
      | none => (.error "fetch layers decode", [req])
      | some mRes =>
        if mRes.manifests.length > 0 then
          let r := getLayersFromManifests goos goarch d fetch mRes.manifests
          (r.1, req :: r.2)
        else if mRes.layers.isEmpty then
          (.error "no layers found in manifest", [req])
        else
          (.ok mRes.layers, [req])

/-! ## Layer download and extraction
(`pullLayers` / `saveLayer` / `extractLayer`, image.go:177-221) -/

/-- Go's `path.Join(a, b)` as used by the source. `path.Join` also runs
`path.Clean` on the result; for the slash-normalised arguments the tool
passes, `Clean` is the identity, and no verified property depends on it. -/
def pathJoin (a b : String) : String := a ++ "/" ++ b

/-- The outcome of each external effect one layer's download-and-extract
can perform: the blob GET (`none` = request construction or transport
failure, `some s` = response with status `s`; the body is consumed by
`io.Copy`, whose outcome is `copy`), `os.Create`, `io.Copy`, the `tar`
subprocess, and `os.Remove`. -/
structure LayerOutcome where
  fetch : Option Nat
  create : Bool
  copy : Bool
  tar : Bool
  remove : Bool
deriving DecidableEq, Repr

/-- The staging directory's observable state: which archive files are
currently present (by path, in creation order) and which layer digests
have been extracted into it (in extraction order). -/
structure FsState where
  archives : List String
  extracted : List String
deriving DecidableEq, Repr

/-- Observable actions of the layer phase, in program order: a registry
request was attempted; an archive's complete content was written to
`path`; the archive at `archivePath` was extracted into `dir`; the
archive at `path` was removed. -/
inductive Event where
  | request (r : RegistryRequest)
  | archiveWritten (path : String)
  | archiveExtracted (archivePath dir : String)
  | archiveRemoved (path : String)
deriving DecidableEq, Repr

/-- Embeds `extractLayer` (image.go:215-221): run
`tar xvvf fileName -C d.dir`; on success remove the archive file.
Returns the result, the new state and the events emitted. -/
def extractLayer (d : DockerImageClient) (out : LayerOutcome)
    (digest fileName : String) (st : FsState) :
    Except String Unit × FsState × List Event :=
  if out.tar = false then
    (.error "error while running tar command", st, [])
  else
    let st1 : FsState := { st with extracted := st.extracted ++ [digest] }
    if out.remove = false then
      (.error "remove", st1, [.archiveExtracted fileName d.dir])
    else
      (.ok (), { st1 with archives := st1.archives.erase fileName },
        [.archiveExtracted fileName d.dir, .archiveRemoved fileName])

/-- Embeds `saveLayer` (image.go:200-213): create `<digest>.tar` in
`d.dir`, copy the blob body into it, then extract. `os.Create` makes the
file exist even if the subsequent copy fails. -/
def saveLayer (d : DockerImageClient) (out : LayerOutcome)
    (name : String) (st : FsState) :
    Except String Unit × FsState × List Event :=
  let filePath := pathJoin d.dir (name ++ ".tar")
  if out.create = false then
    (.error "create file", st, [])
  else
    let st1 : FsState := { st with archives := st.archives ++ [filePath] }
    if out.copy = false then
      (.error "copy file", st1, [])
    else
      let r := extractLayer d out name filePath st1
      (r.1, r.2.1, Event.archiveWritten filePath :: r.2.2)

/-- Embeds `pullLayers` (image.go:177-198): a sequential `for` loop over
the layer list; each iteration GETs the blob by digest, checks the status,
and saves+extracts it, returning on the first error. `env` gives each
digest's external outcomes. -/
def pullLayers (d : DockerImageClient) (env : String → LayerOutcome)
    (layers : List Layer) (st : FsState) :
    Except String Unit × FsState × List Event :=
  match layers with
  | [] => (.ok (), st, [])
  | l :: rest =>
    let out := env l.digest
    let ev0 := Event.request (.blobs d.name l.digest)
    match out.fetch with
    | none => (.error "pull layers: do request", st, [ev0])
    | some status =>
      if status ≠ 200 then
        (.error ("pull layers: " ++ toString status), st, [ev0])
      else
        let r := saveLayer d out l.digest st
        match r.1 with
        | .error e => (.error ("save layer: " ++ e), r.2.1, ev0 :: r.2.2)
        | .ok _ =>
          let r2 := pullLayers d env rest r.2.1
          (r2.1, r2.2.1, (ev0 :: r.2.2) ++ r2.2.2)

/-- Embeds `Pull` (image.go:75-84): authorize, resolve layers, pull them.
Registry requests of the resolution phase are replayed into the event
trace so one trace covers the whole pull. -/
def Pull (goos goarch : String) (d0 : DockerImageClient)
    (authResp : Option (HttpResponse TokenResponse))
    (fetch : RegistryRequest → Option (HttpResponse ManifestListResponse))
    (env : String → LayerOutcome) (st : FsState) :
    Except String Unit × FsState × List Event :=
  match authorize d0 authResp with
  | .error e => (.error e, st, [])
  | .ok d =>
    let r := getLayers goos goarch d fetch
    match r.1 with
    | .error e => (.error e, st, r.2.map Event.request)
    | .ok layers =>
      let r2 := pullLayers d env layers st
      (r2.1, r2.2.1, r.2.map Event.request ++ r2.2.2)

/-! ## Isolation bootstrap (`chroot` / `copyFile`, src/unnamed/part_001) -/

/-- A regular file: its content and its permission mode bits. -/
structure File where
  content : String
  mode : Nat
deriving DecidableEq, Repr

/-- Outcomes of `copyFile`'s fallible effects that are not determined by
the modelled filesystem: `Stat`, `MkdirAll` of the destination directory,
`os.Create`, `io.Copy`, `os.Chmod`. (`os.Open` fails exactly when the
source path is absent in the filesystem map.) -/
structure CopyEnv where
  statOk : Bool
  mkdirOk : Bool
  createOk : Bool
  copyOk : Bool
  chmodOk : Bool
deriving DecidableEq, Repr

/-- Embeds `copyFile` (part_001:30-66): open the source, stat it for its
mode, make the destination directory, create the destination (mode 0666
before umask), copy the content, then chmod the destination to the
source's mode. The filesystem is a map from path to file. -/
def copyFile (e : CopyEnv) (fs : String → Option File) (src dest : String) :
    Except String Unit × (String → Option File) :=
  match fs src with
  | none => (.error "create file", fs)
  | some srcFile =>
    if e.statOk = false then (.error "stat file", fs)
    else if e.mkdirOk = false then (.error "mkdir", fs)
    else if e.createOk = false then (.error "create file", fs)
    else
      let fs1 : String → Option File :=
        fun p => if p = dest then some ⟨"", 438⟩ else fs p
      if e.copyOk = false then (.error "copy file", fs1)
      else
        let fs2 : String → Option File :=
          fun p => if p = dest then some ⟨srcFile.content, 438⟩ else fs p
        if e.chmodOk = false then (.error "chmod file", fs2)
        else
          (.ok (),
            fun p => if p = dest then some ⟨srcFile.content, srcFile.mode⟩ else fs p)

/-- Outcomes of `chroot`'s own fallible effects: `MkdirAll(dir/dev/null)`
and the `syscall.Chroot` call itself. -/
structure ChrootEnv where
  copyEnv : CopyEnv
  mkdirDevOk : Bool
  chrootOk : Bool
deriving DecidableEq, Repr

/-- Embeds `chroot` (part_001:14-28): copy the command binary to
`dir/command`, make `dir/dev/null`, then restrict the root to `dir`.
The final `Bool` records whether `syscall.Chroot` was attempted. -/
def chroot (e : ChrootEnv) (fs : String → Option File) (command dir : String) :
    Except String Unit × (String → Option File) × Bool :=
  let r := copyFile e.copyEnv fs command (pathJoin dir command)
  match r.1 with
  | .error msg => (.error ("copy file: " ++ msg), r.2, false)
  | .ok _ =>
    if e.mkdirDevOk = false then (.error "mkdir", r.2, false)
    else if e.chrootOk = false then (.error "chroot", r.2, true)
    else (.ok (), r.2, true)

/-! ## `main` (src/unnamed/part_000:106-136) -/

/-- Embeds the exit-code behaviour of `main` (part_000:106-136):
`os.MkdirTemp` failure (`tmpDir = none`), `Pull` failure or `chroot`
failure each `os.Exit(1)`; otherwise the child command runs and, when
`cmd.Run` reports a nonzero child exit, `main` exits with
`cmd.ProcessState.ExitCode()`; a zero child exit returns from `main`
(process exit 0). `childExit` is the exit code of the child once it runs. -/
def mainRun (goos goarch imageName command : String) (tmpDir : Option String)
    (authResp : Option (HttpResponse TokenResponse))
    (fetch : RegistryRequest → Option (HttpResponse ManifestListResponse))
    (env : String → LayerOutcome)
    (ce : ChrootEnv) (fs : String → Option File) (childExit : Int) : Int :=
  match tmpDir with
  | none => 1
  | some dir =>
    let d := newDockerImageClient imageName dir
    match (Pull goos goarch d authResp fetch env ⟨[], []⟩).1 with
    | .error _ => 1
    | .ok _ =>
      match (chroot ce fs command dir).1 with
      | .error _ => 1
      | .ok _ => if childExit ≠ 0 then childExit else 0

/-! ## Specification-side helpers

These are not translations of source functions: they name the observable
behaviours the claims talk about, to be proved equal to what the
embedded source produces. -/

/-- The full event sequence of one successfully processed layer: request
the blob, write `<digest>.tar` into the staging directory, extract it
there, remove it. -/
def layerEvents (name dir digest : String) : List Event :=
  [.request (.blobs name digest),
   .archiveWritten (pathJoin dir (digest ++ ".tar")),
   .archiveExtracted (pathJoin dir (digest ++ ".tar")) dir,
   .archiveRemoved (pathJoin dir (digest ++ ".tar"))]

/-- Concatenated per-layer event sequences, in list order. -/
def seqEvents (name dir : String) (ls : List Layer) : List Event :=
  (ls.map (fun l => layerEvents name dir l.digest)).flatten

/-- Whether one layer's external outcomes let its iteration succeed. -/
def layerOk (out : LayerOutcome) : Bool :=
  match out.fetch with
  | none => false
  | some s => s == 200 && out.create && out.copy && out.tar && out.remove

/-- The events one layer's iteration emits given its outcomes: a stop at
each failure point truncates the sequence accordingly. -/
def layerAttemptEvents (name dir : String) (out : LayerOutcome) (digest : String) :
    List Event :=
  match out.fetch with
  | none => [.request (.blobs name digest)]
  | some s =>
    if s ≠ 200 then [.request (.blobs name digest)]
    else if out.create = false then [.request (.blobs name digest)]
    else if out.copy = false then [.request (.blobs name digest)]
    else if out.tar = false then
      [.request (.blobs name digest),
       .archiveWritten (pathJoin dir (digest ++ ".tar"))]
    else if out.remove = false then
      [.request (.blobs name digest),
       .archiveWritten (pathJoin dir (digest ++ ".tar")),
       .archiveExtracted (pathJoin dir (digest ++ ".tar")) dir]
    else layerEvents name dir digest

/-! ## Lemmas about manifest selection -/

/-- The selection fold keeps the last element satisfying `p`, falling back
to the accumulator when none does. -/
lemma foldl_select_eq (p : Manifest → Bool) (ms : List Manifest) (acc : Option Manifest) :
    ms.foldl (fun a m => if p m then some m else a) acc
      = ((ms.filter p).getLast?).elim acc some := by
  induction ms generalizing acc with
  | nil => simp
  | cons m ms ih =>
    by_cases h : p m
    · rw [List.foldl_cons, if_pos h, ih, List.filter_cons, if_pos h]
      cases hf : ms.filter p with
      | nil => simp
      | cons a t =>
        obtain ⟨x, hx⟩ := Option.isSome_iff_exists.mp
          (List.getLast?_isSome.mpr (List.cons_ne_nil a t))
        simp [List.getLast?_cons_cons, hx]
    · rw [List.foldl_cons, if_neg h, ih, List.filter_cons, if_neg h]

/-- `selectManifest` returns the last matching entry. -/
lemma selectManifest_eq_getLast (goos goarch : String) (ms : List Manifest) :
    selectManifest goos goarch ms
      = (ms.filter (platformMatches goos goarch)).getLast? := by
  rw [selectManifest, foldl_select_eq]
  cases (ms.filter (platformMatches goos goarch)).getLast? <;> rfl

/-- When nothing matches, `selectManifest` returns `none`. -/
lemma selectManifest_eq_none (goos goarch : String) (ms : List Manifest)
    (h : ∀ m ∈ ms, platformMatches goos goarch m = false) :
    selectManifest goos goarch ms = none := by
  rw [selectManifest_eq_getLast]
  have : ms.filter (platformMatches goos goarch) = [] := by
    simp only [List.filter_eq_nil_iff]
    intro m hm
    simp [h m hm]
  simp [this]

/-! ## Lemmas about the layer loop -/

/-- Full characterisation of `pullLayers`: its event trace is the
concatenated per-layer sequences of the longest all-successful front of
the list, followed by the truncated events of the first failing layer
(nothing for layers after it); and it succeeds exactly when every layer's
outcomes succeed. -/
lemma pullLayers_trace (d : DockerImageClient) (env : String → LayerOutcome)
    (layers : List Layer) (st : FsState) :
    (pullLayers d env layers st).2.2 =
      seqEvents d.name d.dir (layers.takeWhile fun l => layerOk (env l.digest)) ++
        (match layers.dropWhile (fun l => layerOk (env l.digest)) with
         | [] => []
         | l :: _ => layerAttemptEvents d.name d.dir (env l.digest) l.digest) ∧
    ((pullLayers d env layers st).1 = .ok () ↔
      ∀ l ∈ layers, layerOk (env l.digest) = true) := by
  induction layers generalizing st with
  | nil => simp [pullLayers, seqEvents]
  | cons l rest ih =>
    rcases ho : env l.digest with ⟨f, c, cp, tb, rb⟩
    rcases f with _ | s
    · simp [pullLayers, ho, layerOk, layerAttemptEvents, seqEvents,
        List.takeWhile_cons, List.dropWhile_cons]
    · by_cases hs : s = 200
      · subst hs
        cases c <;> cases cp <;> cases tb <;> cases rb <;>
          simp [pullLayers, saveLayer, extractLayer, ho, layerOk,
            layerAttemptEvents, layerEvents, seqEvents,
            List.takeWhile_cons, List.dropWhile_cons, ih]
      · simp [pullLayers, ho, layerOk, layerAttemptEvents, seqEvents,
          List.takeWhile_cons, List.dropWhile_cons, hs]

/-- On success from a staging state with no archive files, `pullLayers`
leaves no archive files and appends exactly the pulled digests to the
extracted list. -/
lemma pullLayers_ok_state (d : DockerImageClient) (env : String → LayerOutcome)
    (layers : List Layer) :
    ∀ e, (pullLayers d env layers ⟨[], e⟩).1 = .ok () →
      (pullLayers d env layers ⟨[], e⟩).2.1 =
        ⟨[], e ++ layers.map fun l => l.digest⟩ := by
  induction layers with
  | nil => intro e _; simp [pullLayers]
  | cons l rest ih =>
    intro e h
    rcases ho : env l.digest with ⟨f, c, cp, tb, rb⟩
    rcases f with _ | s
    · simp [pullLayers, ho] at h
    · by_cases hs : s = 200
      · subst hs
        cases c <;> cases cp <;> cases tb <;> cases rb <;>
          simp_all [pullLayers, saveLayer, extractLayer, ho]
      · simp [pullLayers, ho, hs] at h

/-! ## Claim theorems -/

/-- C1: parsing an image reference. The untagged form works as specified
(`"busybox"` gives name `"busybox"`, tag `"latest"`), but the source has
no branch for `len(parts) != 1`, so a `name:tag` reference leaves both
fields at their zero value `""` instead of carrying the given name and
tag — the code contradicts the documented `name:tag` command surface. -/
theorem newDockerImageClient_parse_eval :
    (newDockerImageClient "busybox" "/tmp").name = "busybox" ∧
    (newDockerImageClient "busybox" "/tmp").tag = "latest" ∧
    (newDockerImageClient "busybox:1.36" "/tmp").name = "" ∧
    (newDockerImageClient "busybox:1.36" "/tmp").tag = "" :=
  ⟨rfl, rfl, rfl, rfl⟩

/-- C2 counterexample: `authorize` never inspects the HTTP status. With a
401 token response whose body still decodes, authorization succeeds and
the pull goes on to attempt the manifest request, refuting both the
"every registry GET fails on non-200" and the "pull aborts before any
manifest request" parts of the claim. -/
theorem authorize_accepts_non200 :
    authorize (newDockerImageClient "busybox" "/tmp") (some ⟨401, some ⟨"tok"⟩⟩)
      = .ok ⟨"busybox", "latest", "tok", "/tmp"⟩ ∧
    (Pull "linux" "amd64" (newDockerImageClient "busybox" "/tmp")
        (some ⟨401, some ⟨"tok"⟩⟩) (fun _ => none)
        (fun _ => ⟨none, false, false, false, false⟩) ⟨[], []⟩).2.2
      = [Event.request (.manifests "busybox" "latest" HEADER_ACCEPT_API)] :=
  ⟨rfl, rfl⟩

/-- C2 amended: the manifest fetch, the platform-specific manifest fetch
and every blob fetch fail with an error whenever the response status is
not 200; the token request, however, does not check the status — it
succeeds whenever the body decodes, storing whatever token it carries. -/
theorem registry_status_checks (s : Nat) (hs : s ≠ 200) (t : TokenResponse)
    (d : DockerImageClient) (goos goarch : String)
    (b : Option ManifestListResponse) (l : Layer) (rest : List Layer)
    (out : LayerOutcome) (hout : out.fetch = some s) (st : FsState) :
    authorize d (some ⟨s, some t⟩) = .ok { d with token := t.token } ∧
    (getLayers goos goarch d (fun _ => some ⟨s, b⟩)).1
      = .error ("fetch layers: " ++ toString s) ∧
    (∀ ms m, selectManifest goos goarch ms = some m →
      (getLayersFromManifests goos goarch d (fun _ => some ⟨s, b⟩) ms).1
        = .error ("fetch layers from manifests: " ++ toString s)) ∧
    (pullLayers d (fun _ => out) (l :: rest) st).1
      = .error ("pull layers: " ++ toString s) := by
  refine ⟨rfl, ?_, ?_, ?_⟩
  · simp [getLayers, hs]
  · intro ms m hm
    simp [getLayersFromManifests, hm, hs]
  · simp [pullLayers, hout, hs]

/-- Witness for `registry_status_checks` at status 404. -/
theorem registry_status_checks_witness :
    authorize ⟨"busybox", "latest", "", "/tmp"⟩ (some ⟨404, some ⟨"x"⟩⟩)
      = .ok ⟨"busybox", "latest", "x", "/tmp"⟩ ∧
    (getLayers "linux" "amd64" ⟨"busybox", "latest", "", "/tmp"⟩
        (fun _ => some ⟨404, none⟩)).1
      = .error ("fetch layers: " ++ toString 404) ∧
    (getLayersFromManifests "linux" "amd64" ⟨"busybox", "latest", "", "/tmp"⟩
        (fun _ => some ⟨404, none⟩) [⟨⟨"amd64", "linux"⟩, "dg", "mt"⟩]).1
      = .error ("fetch layers from manifests: " ++ toString 404) ∧
    (pullLayers ⟨"busybox", "latest", "", "/tmp"⟩
        (fun _ => ⟨some 404, true, true, true, true⟩) [⟨"mt", 1, "dg"⟩] ⟨[], []⟩).1
      = .error ("pull layers: " ++ toString 404) := by
  have h := registry_status_checks 404 (by decide) ⟨"x"⟩
    ⟨"busybox", "latest", "", "/tmp"⟩ "linux" "amd64" none ⟨"mt", 1, "dg"⟩ []
    ⟨some 404, true, true, true, true⟩ rfl ⟨[], []⟩
  exact ⟨h.1, h.2.1, h.2.2.1 _ _ rfl, h.2.2.2⟩

/-- C3: on a successful pull, every layer's blob is written to
`<digest>.tar` in the staging directory, then extracted there, then the
archive removed — in that order, per layer (the event trace is exactly
the per-layer write/extract/remove sequences) — and afterwards all N
digests have been extracted while zero archive files remain. -/
theorem pullLayers_success_extracts_all (d : DockerImageClient)
    (env : String → LayerOutcome) (layers : List Layer)
    (h : (pullLayers d env layers ⟨[], []⟩).1 = .ok ()) :
    (pullLayers d env layers ⟨[], []⟩).2.2 = seqEvents d.name d.dir layers ∧
    (pullLayers d env layers ⟨[], []⟩).2.1.extracted
      = layers.map (fun l => l.digest) ∧
    (pullLayers d env layers ⟨[], []⟩).2.1.archives = [] := by
  have ht := pullLayers_trace d env layers ⟨[], []⟩
  have hall : ∀ l ∈ layers, layerOk (env l.digest) = true := ht.2.mp h
  have hstate := pullLayers_ok_state d env layers [] h
  refine ⟨?_, ?_, ?_⟩
  · rw [ht.1, List.takeWhile_eq_self_iff.mpr hall,
      List.dropWhile_eq_nil_iff.mpr hall]
    simp
  · rw [hstate]; simp
  · rw [hstate]

/-- Witness for `pullLayers_success_extracts_all`: two layers, all
outcomes successful. -/
theorem pullLayers_success_extracts_all_witness :
    (pullLayers ⟨"busybox", "latest", "tok", "/tmp/d"⟩
        (fun _ => ⟨some 200, true, true, true, true⟩)
        [⟨"mt", 1, "a"⟩, ⟨"mt", 2, "b"⟩] ⟨[], []⟩).2.1.extracted = ["a", "b"] ∧
    (pullLayers ⟨"busybox", "latest", "tok", "/tmp/d"⟩
        (fun _ => ⟨some 200, true, true, true, true⟩)
        [⟨"mt", 1, "a"⟩, ⟨"mt", 2, "b"⟩] ⟨[], []⟩).2.1.archives = [] := by
  have h := pullLayers_success_extracts_all ⟨"busybox", "latest", "tok", "/tmp/d"⟩
    (fun _ => ⟨some 200, true, true, true, true⟩)
    [⟨"mt", 1, "a"⟩, ⟨"mt", 2, "b"⟩] rfl
  exact ⟨h.2.1, h.2.2⟩

/-- C6: `pullLayers` is strictly sequential in list order. Its event
trace is exactly the concatenated request/write/extract/remove sequences
of the longest all-successful front of the layer list, followed only by
the truncated events of the first failing layer — so layer `i+1`'s blob
request appears only after layer `i`'s archive removal, and after the
first failure no later layer is fetched or extracted; the pull succeeds
iff every layer's outcomes succeed. -/
theorem pullLayers_sequential (d : DockerImageClient)
    (env : String → LayerOutcome) (layers : List Layer) (st : FsState) :
    (pullLayers d env layers st).2.2 =
      seqEvents d.name d.dir (layers.takeWhile fun l => layerOk (env l.digest)) ++
        (match layers.dropWhile (fun l => layerOk (env l.digest)) with
         | [] => []
         | l :: _ => layerAttemptEvents d.name d.dir (env l.digest) l.digest) ∧
    ((pullLayers d env layers st).1 = .ok () ↔
      ∀ l ∈ layers, layerOk (env l.digest) = true) :=
  pullLayers_trace d env layers st

/-- Witness for `pullLayers_sequential`: the second of three layers
fails its blob fetch; the trace stops at its request, and the third
layer is never fetched. -/
theorem pullLayers_sequential_witness :
    (pullLayers ⟨"busybox", "latest", "tok", "/tmp/d"⟩
        (fun dg => if dg = "b" then ⟨none, true, true, true, true⟩
                   else ⟨some 200, true, true, true, true⟩)
        [⟨"mt", 1, "a"⟩, ⟨"mt", 2, "b"⟩, ⟨"mt", 3, "c"⟩] ⟨[], []⟩).2.2
      = seqEvents "busybox" "/tmp/d" [⟨"mt", 1, "a"⟩] ++
          [Event.request (.blobs "busybox" "b")] := by
  have h := pullLayers_sequential ⟨"busybox", "latest", "tok", "/tmp/d"⟩
    (fun dg => if dg = "b" then ⟨none, true, true, true, true⟩
               else ⟨some 200, true, true, true, true⟩)
    [⟨"mt", 1, "a"⟩, ⟨"mt", 2, "b"⟩, ⟨"mt", 3, "c"⟩] ⟨[], []⟩
  rw [h.1]
  rfl

/-- C5 counterexample: with two entries matching `linux/amd64`, the
follow-up manifest request carries the second (last) entry's digest and
mediaType, not the first's. -/
theorem getLayersFromManifests_first_match_refuted :
    (getLayersFromManifests "linux" "amd64" (newDockerImageClient "busybox" "/tmp")
        (fun _ => none)
        [⟨⟨"amd64", "linux"⟩, "sha256:aaa", "mtA"⟩,
         ⟨⟨"amd64", "linux"⟩, "sha256:bbb", "mtB"⟩]).2
      = [RegistryRequest.manifests "busybox" "sha256:bbb" "mtB"] ∧
    ("sha256:bbb" : String) ≠ "sha256:aaa" :=
  ⟨rfl, by decide⟩

/-- C5 amended: when several entries match the running OS/architecture,
the *last* matching entry is the one selected, and its digest and
mediaType are used for the follow-up platform-specific manifest fetch. -/
theorem getLayersFromManifests_uses_last_match (goos goarch : String)
    (d : DockerImageClient)
    (fetch : RegistryRequest → Option (HttpResponse ManifestListResponse))
    (ms : List Manifest) (m : Manifest)
    (h : (ms.filter (platformMatches goos goarch)).getLast? = some m) :
    selectManifest goos goarch ms = some m ∧
    (getLayersFromManifests goos goarch d fetch ms).2
      = [RegistryRequest.manifests d.name m.digest m.mediaType] := by
  have hsel : selectManifest goos goarch ms = some m := by
    rw [selectManifest_eq_getLast, h]
  refine ⟨hsel, ?_⟩
  rw [getLayersFromManifests, hsel]
  cases hf : fetch (RegistryRequest.manifests d.name m.digest m.mediaType) with
  | none => simp [hf]
  | some resp =>
    obtain ⟨sc, body⟩ := resp
    by_cases hst : sc = 200
    · subst hst
      rcases body with _ | mRes
      · simp [hf]
      · by_cases hl : mRes.layers.isEmpty <;> simp [hf, hl]
    · simp [hf, hst]

/-- Witness for `getLayersFromManifests_uses_last_match`: two matching
entries, the last one selected. -/
theorem getLayersFromManifests_uses_last_match_witness :
    selectManifest "linux" "amd64"
        [⟨⟨"amd64", "linux"⟩, "sha256:one", "mt1"⟩,
         ⟨⟨"amd64", "linux"⟩, "sha256:two", "mt2"⟩]
      = some ⟨⟨"amd64", "linux"⟩, "sha256:two", "mt2"⟩ ∧
    (getLayersFromManifests "linux" "amd64" ⟨"busybox", "latest", "tok", "/tmp"⟩
        (fun _ => none)
        [⟨⟨"amd64", "linux"⟩, "sha256:one", "mt1"⟩,
         ⟨⟨"amd64", "linux"⟩, "sha256:two", "mt2"⟩]).2
      = [RegistryRequest.manifests "busybox" "sha256:two" "mt2"] :=
  getLayersFromManifests_uses_last_match "linux" "amd64"
    ⟨"busybox", "latest", "tok", "/tmp"⟩ (fun _ => none)
    [⟨⟨"amd64", "linux"⟩, "sha256:one", "mt1"⟩,
     ⟨⟨"amd64", "linux"⟩, "sha256:two", "mt2"⟩]
    ⟨⟨"amd64", "linux"⟩, "sha256:two", "mt2"⟩ (by decide)

/-- C7: when no manifest-list entry matches the running OS/architecture,
resolution fails with an error naming the OS and architecture attempted,
and no follow-up request of any kind is issued (the request trace is
empty). -/
theorem getLayersFromManifests_no_match (goos goarch : String)
    (d : DockerImageClient)
    (fetch : RegistryRequest → Option (HttpResponse ManifestListResponse))
    (ms : List Manifest)
    (h : ∀ m ∈ ms, platformMatches goos goarch m = false) :
    getLayersFromManifests goos goarch d fetch ms
      = (.error ("no manifest found for " ++ goos ++ "/" ++ goarch), []) := by
  rw [getLayersFromManifests, selectManifest_eq_none goos goarch ms h]

/-- Witness for `getLayersFromManifests_no_match`: an arm-only list on
`linux/amd64`. -/
theorem getLayersFromManifests_no_match_witness :
    getLayersFromManifests "linux" "amd64" ⟨"busybox", "latest", "tok", "/tmp"⟩
        (fun _ => none) [⟨⟨"arm64", "linux"⟩, "dg", "mt"⟩]
      = (.error ("no manifest found for " ++ "linux" ++ "/" ++ "amd64"), []) :=
  getLayersFromManifests_no_match "linux" "amd64" ⟨"busybox", "latest", "tok", "/tmp"⟩
    (fun _ => none) [⟨⟨"arm64", "linux"⟩, "dg", "mt"⟩] (by decide)

/-- C8: for a direct (non-list) manifest response — one whose `manifests`
field is empty — a non-empty `layers` array is returned unchanged, and an
empty one fails with the empty-manifest error. -/
theorem getLayers_direct_manifest (goos goarch : String) (d : DockerImageClient)
    (fetch : RegistryRequest → Option (HttpResponse ManifestListResponse))
    (mRes : ManifestListResponse)
    (hfetch : fetch (.manifests d.name d.tag HEADER_ACCEPT_API) = some ⟨200, some mRes⟩)
    (hm : mRes.manifests = []) :
    (getLayers goos goarch d fetch).1
      = (if mRes.layers.isEmpty then .error "no layers found in manifest"
         else .ok mRes.layers) := by
  rw [getLayers]
  simp only [hfetch, hm]
  by_cases hl : mRes.layers.isEmpty <;> simp [hl]

/-- Witness for `getLayers_direct_manifest`: a one-layer direct manifest
is returned unchanged. -/
theorem getLayers_direct_manifest_witness :
    (getLayers "linux" "amd64" ⟨"busybox", "latest", "tok", "/tmp"⟩
        (fun _ => some ⟨200, some ⟨[], [⟨"mt", 1, "dg"⟩]⟩⟩)).1
      = .ok [⟨"mt", 1, "dg"⟩] := by
  have h := getLayers_direct_manifest "linux" "amd64" ⟨"busybox", "latest", "tok", "/tmp"⟩
    (fun _ => some ⟨200, some ⟨[], [⟨"mt", 1, "dg"⟩]⟩⟩) ⟨[], [⟨"mt", 1, "dg"⟩]⟩ rfl rfl
  simpa using h

/-- C9: the tool's exit code mirrors the child's exit code whenever the
child runs — a nonzero child exit code exactly, a zero child exit yields
0 — and is 1 when temp-dir creation, the pull, or the chroot fails
before the child is launched. -/
theorem mainRun_exit_code (goos goarch imageName command dir : String)
    (authResp : Option (HttpResponse TokenResponse))
    (fetch : RegistryRequest → Option (HttpResponse ManifestListResponse))
    (env : String → LayerOutcome) (ce : ChrootEnv)
    (fs : String → Option File) (c : Int) :
    mainRun goos goarch imageName command none authResp fetch env ce fs c = 1 ∧
    ((Pull goos goarch (newDockerImageClient imageName dir) authResp fetch env
        ⟨[], []⟩).1 = .ok () →
      (chroot ce fs command dir).1 = .ok () →
      mainRun goos goarch imageName command (some dir) authResp fetch env ce fs c
        = c) ∧
    (∀ e, (Pull goos goarch (newDockerImageClient imageName dir) authResp fetch env
        ⟨[], []⟩).1 = .error e →
      mainRun goos goarch imageName command (some dir) authResp fetch env ce fs c
        = 1) ∧
    (∀ e, (Pull goos goarch (newDockerImageClient imageName dir) authResp fetch env
        ⟨[], []⟩).1 = .ok () →
      (chroot ce fs command dir).1 = .error e →
      mainRun goos goarch imageName command (some dir) authResp fetch env ce fs c
        = 1) := by
  refine ⟨rfl, ?_, ?_, ?_⟩
  · intro h1 h2
    rw [mainRun]
    simp only [h1, h2]
    by_cases hc : c = 0
    · simp [hc]
    · simp [hc]
  · intro e h1
    rw [mainRun]
    simp [h1]
  · intro e h1 h2
    rw [mainRun]
    simp [h1, h2]

/-- Witness for `mainRun_exit_code`: a full successful pipeline (direct
one-layer manifest, all effects succeeding) with the child exiting 7
gives process exit code 7. -/
theorem mainRun_exit_code_witness :
    mainRun "linux" "amd64" "busybox" "/bin/sh" (some "/tmp/d")
        (some ⟨200, some ⟨"tok"⟩⟩)
        (fun _ => some ⟨200, some ⟨[], [⟨"mt", 1, "dg"⟩]⟩⟩)
        (fun _ => ⟨some 200, true, true, true, true⟩)
        ⟨⟨true, true, true, true, true⟩, true, true⟩
        (fun p => if p = "/bin/sh" then some ⟨"shbin", 493⟩ else none) 7 = 7 := by
  have h := mainRun_exit_code "linux" "amd64" "busybox" "/bin/sh" "/tmp/d"
    (some ⟨200, some ⟨"tok"⟩⟩)
    (fun _ => some ⟨200, some ⟨[], [⟨"mt", 1, "dg"⟩]⟩⟩)
    (fun _ => ⟨some 200, true, true, true, true⟩)
    ⟨⟨true, true, true, true, true⟩, true, true⟩
    (fun p => if p = "/bin/sh" then some ⟨"shbin", 493⟩ else none) 7
  exact h.2.1 rfl rfl

/-- C10: the target executable is copied from the original filesystem to
the same relative path under the staging directory with its content and
file mode preserved before the root is restricted; the `syscall.Chroot`
call is attempted only when the copy succeeded, and when the copy fails
the root is never restricted. -/
theorem chroot_copies_before_restricting (e : ChrootEnv)
    (fs : String → Option File) (command dir : String) (f : File)
    (hsrc : fs command = some f) :
    ((chroot e fs command dir).2.2 = true →
      (copyFile e.copyEnv fs command (pathJoin dir command)).1 = .ok () ∧
      (chroot e fs command dir).2.1 (pathJoin dir command) = some f) ∧
    ((copyFile e.copyEnv fs command (pathJoin dir command)).1 ≠ .ok () →
      (chroot e fs command dir).2.2 = false) := by
  obtain ⟨⟨st, mk, cr, cp, ch⟩, mdev, chr⟩ := e
  cases st <;> cases mk <;> cases cr <;> cases cp <;> cases ch <;>
    cases mdev <;> cases chr <;>
    simp_all [chroot, copyFile, hsrc]

/-- Witness for `chroot_copies_before_restricting`: all effects succeed;
the chroot is attempted and the staged copy carries the original content
and mode. -/
theorem chroot_copies_before_restricting_witness :
    (chroot ⟨⟨true, true, true, true, true⟩, true, true⟩
        (fun p => if p = "/bin/sh" then some ⟨"shbin", 493⟩ else none)
        "/bin/sh" "/tmp/d").2.2 = true ∧
    (chroot ⟨⟨true, true, true, true, true⟩, true, true⟩
        (fun p => if p = "/bin/sh" then some ⟨"shbin", 493⟩ else none)
        "/bin/sh" "/tmp/d").2.1 (pathJoin "/tmp/d" "/bin/sh")
      = some ⟨"shbin", 493⟩ := by
  have h := chroot_copies_before_restricting
    ⟨⟨true, true, true, true, true⟩, true, true⟩
    (fun p => if p = "/bin/sh" then some ⟨"shbin", 493⟩ else none)
    "/bin/sh" "/tmp/d" ⟨"shbin", 493⟩ (by simp)
  exact ⟨rfl, (h.1 rfl).2⟩

end DiyDocker
